import Mathlib

/-!
Verification of the update-manifest publisher (src/main.go).

The development shallowly embeds the program:

* the `Manifest` JSON schema (src/main.go lines 195-207) as Lean structures,
  where a Go `nil` map is distinguished from an empty map by `Option`;
* Go map lookup/assignment on string keys as association-list operations;
* the BLAKE2b-256 digest (golang.org/x/crypto/blake2b, RFC 7693) and
  `hex.EncodeToString` as executable functions on byte lists;
* the body of `main` after configuration/file loading (lines 96-193) as a
  pure function `run` from the outcomes of the external I/O operations to
  the trace of storage uploads, the process exit code, and the manifest
  value handed to the manifest upload.

Go runtime panics (assignment to an entry of a nil map) are modelled by
`Option`: `none` is abnormal termination.
-/

namespace UpdateManifest

/-- Per-platform release payload: the innermost anonymous struct of
src/main.go (fields `Binary`, `Checksum`, `Patch`, JSON tags `binary`,
`checksum`, `patch`; no `omitempty` on any field). -/
structure ArtifactEntry where
  binary : String
  checksum : String
  patch : String
deriving DecidableEq, Repr

/-- Per-channel release state: the anonymous struct stored in
`Manifest.Channel` (src/main.go lines 197-206). `build` models the
`time.Time` field as an integer timestamp. `artifact` is a Go map of
platform name to entry; `none` models a `nil` Go map (as produced by
decoding a JSON document where the `artifact` key is absent or null),
which is distinct from an empty map. -/
structure ChannelEntry where
  version : String
  build : Int
  artifact : Option (List (String × ArtifactEntry))
deriving DecidableEq, Repr

/-- The root persisted document (src/main.go lines 195-207). `channel` is a
Go map of channel name to entry; `none` models a `nil` map, the zero value
`var manifest Manifest` starts with. -/
structure Manifest where
  channel : Option (List (String × ChannelEntry))
deriving DecidableEq, Repr

/-- Go map read `m[k]`: the value bound to the first (unique) occurrence of
the key, or absence. -/
def mapLookup {α : Type} : List (String × α) → String → Option α
  | [], _ => none
  | (k, v) :: rest, key => if k = key then some v else mapLookup rest key

/-- Go map assignment `m[k] = v`: replace the binding in place if the key is
present, otherwise add it. -/
def mapInsert {α : Type} : List (String × α) → String → α → List (String × α)
  | [], key, v => [(key, v)]
  | (k, w) :: rest, key, v =>
      if k = key then (key, v) :: rest else (k, w) :: mapInsert rest key v

/-- Read of `manifest.Channel[c]` (after the nil check): the channel entry
bound to `c`, if any. -/
def lookupChannel (m : Manifest) (c : String) : Option ChannelEntry :=
  match m.channel with
  | none => none
  | some cm => mapLookup cm c

/-- Read of `manifest.Channel[c].Artifact[p]` when the whole path exists:
the artifact entry bound to platform `p` under channel `c`. -/
def lookupArtifact (m : Manifest) (c p : String) : Option ArtifactEntry :=
  match lookupChannel m c with
  | none => none
  | some ce =>
      match ce.artifact with
      | none => none
      | some am => mapLookup am p

/-- Lines 107-118: `if manifest.Channel == nil` replace the nil map by a
freshly made empty one. -/
def ensureChannelMap (m : Manifest) : Manifest :=
  match m.channel with
  | none => { channel := some [] }
  | some _ => m

/-- Lines 120-137: if the channel key is absent, bind it to a zero-valued
entry whose `Artifact` map is freshly made (empty, not nil). Called only
after `ensureChannelMap`, so a nil channel map is left as is. -/
def ensureChannel (m : Manifest) (c : String) : Manifest :=
  match m.channel with
  | none => m
  | some cm =>
      match mapLookup cm c with
      | some _ => m
      | none => { channel := some (mapInsert cm c ⟨"", 0, some []⟩) }

/-- Lines 139-145: if the platform key is absent from the channel entry's
`Artifact` map, assign a zero-valued entry to it. A read from a nil Go map
reports absence, but the assignment `...Artifact[Platform] = ...` into a
nil map is a runtime panic: that case, reachable when the fetched manifest
held the channel with a null/absent `artifact` mapping, is `none`. The
`none` cases for a missing channel path model the nil-pointer dereference
panics that would likewise abort the process; `run` only calls this after
the channel path was ensured. -/
def ensurePlatform (m : Manifest) (c p : String) : Option Manifest :=
  match m.channel with
  | none => none
  | some cm =>
      match mapLookup cm c with
      | none => none
      | some ce =>
          match ce.artifact with
          | none => none
          | some am =>
              match mapLookup am p with
              | some _ => some m
              | none =>
                  some { channel := some (mapInsert cm c
                    { ce with artifact := some (mapInsert am p ⟨"", "", ""⟩) }) }

/-- Line 147: `manifest.Channel[Channel].Version = Version`. In `run` the
channel entry always exists here; an absent path is left unchanged. -/
def setVersion (m : Manifest) (c v : String) : Manifest :=
  match m.channel with
  | none => m
  | some cm =>
      match mapLookup cm c with
      | none => m
      | some ce => { channel := some (mapInsert cm c { ce with version := v }) }

/-- Line 175: `manifest.Channel[Channel].Build = executableStat.ModTime()`. -/
def setBuild (m : Manifest) (c : String) (b : Int) : Manifest :=
  match m.channel with
  | none => m
  | some cm =>
      match mapLookup cm c with
      | none => m
      | some ce => { channel := some (mapInsert cm c { ce with build := b }) }

/-- Line 156: `manifest.Channel[Channel].Artifact[Platform].Checksum = ...`.
In `run` the full path always exists here; an absent path is left
unchanged. -/
def setChecksum (m : Manifest) (c p s : String) : Manifest :=
  match m.channel with
  | none => m
  | some cm =>
      match mapLookup cm c with
      | none => m
      | some ce =>
          match ce.artifact with
          | none => m
          | some am =>
              match mapLookup am p with
              | none => m
              | some a =>
                  { channel := some (mapInsert cm c
                    { ce with artifact := some (mapInsert am p { a with checksum := s }) }) }

/-- Line 174: `manifest.Channel[Channel].Artifact[Platform].Binary = ...`. -/
def setBinary (m : Manifest) (c p s : String) : Manifest :=
  match m.channel with
  | none => m
  | some cm =>
      match mapLookup cm c with
      | none => m
      | some ce =>
          match ce.artifact with
          | none => m
          | some am =>
              match mapLookup am p with
              | none => m
              | some a =>
                  { channel := some (mapInsert cm c
                    { ce with artifact := some (mapInsert am p { a with binary := s }) }) }

/-- Reduction modulo 2^64, the word size of BLAKE2b. -/
def mask64 (x : Nat) : Nat := x % 18446744073709551616

/-- Right rotation of a 64-bit word. -/
def rotr64 (x n : Nat) : Nat := (x >>> n) ||| mask64 (x <<< (64 - n))

/-- BLAKE2b initialization vector (RFC 7693 section 2.6). -/
def b2IV : List Nat :=
  [0x6A09E667F3BCC908, 0xBB67AE8584CAA73B, 0x3C6EF372FE94F82B, 0xA54FF53A5F1D36F1,
   0x510E527FADE682D1, 0x9B05688C2B3E6C1F, 0x1F83D9ABFB41BD6B, 0x5BE0CD19137E2179]

/-- BLAKE2b message schedule SIGMA (RFC 7693 section 2.7). -/
def sigmaTable : List (List Nat) :=
  [[0, 1, 2, 3, 4, 5, 6, 7, 8, 9, 10, 11, 12, 13, 14, 15],
   [14, 10, 4, 8, 9, 15, 13, 6, 1, 12, 0, 2, 11, 7, 5, 3],
   [11, 8, 12, 0, 5, 2, 15, 13, 10, 14, 3, 6, 7, 1, 9, 4],
   [7, 9, 3, 1, 13, 12, 11, 14, 2, 6, 5, 10, 4, 0, 15, 8],
   [9, 0, 5, 7, 2, 4, 10, 15, 14, 1, 11, 12, 6, 8, 3, 13],
   [2, 12, 6, 10, 0, 11, 8, 3, 4, 13, 7, 5, 15, 14, 1, 9],
   [12, 5, 1, 15, 14, 13, 4, 10, 0, 7, 6, 3, 9, 2, 8, 11],
   [13, 11, 7, 14, 12, 1, 3, 9, 5, 0, 15, 4, 8, 6, 2, 10],
   [6, 15, 14, 9, 11, 3, 0, 8, 12, 2, 13, 7, 1, 4, 10, 5],
   [10, 2, 8, 4, 7, 6, 1, 5, 15, 11, 9, 14, 3, 12, 13, 0]]

/-- Word read from the 16-word working vector. -/
def vget (v : List Nat) (i : Nat) : Nat := v.getD i 0

/-- Word write into the 16-word working vector. -/
def vset (v : List Nat) (i x : Nat) : List Nat := v.set i x

/-- The BLAKE2b mixing function G (RFC 7693 section 3.1). -/
def gMix (v : List Nat) (a b c d x y : Nat) : List Nat :=
  let va := mask64 (vget v a + vget v b + x)
  let vd := rotr64 (vget v d ^^^ va) 32
  let vc := mask64 (vget v c + vd)
  let vb := rotr64 (vget v b ^^^ vc) 24
  let va := mask64 (va + vb + y)
  let vd := rotr64 (vd ^^^ va) 16
  let vc := mask64 (vc + vd)
  let vb := rotr64 (vb ^^^ vc) 63
  vset (vset (vset (vset v a va) b vb) c vc) d vd

/-- One round of the BLAKE2b compression function, with `s` the SIGMA row. -/
def b2Round (m v s : List Nat) : List Nat :=
  let mw := fun i => m.getD (s.getD i 0) 0
  let v := gMix v 0 4 8 12 (mw 0) (mw 1)
  let v := gMix v 1 5 9 13 (mw 2) (mw 3)
  let v := gMix v 2 6 10 14 (mw 4) (mw 5)
  let v := gMix v 3 7 11 15 (mw 6) (mw 7)
  let v := gMix v 0 5 10 15 (mw 8) (mw 9)
  let v := gMix v 1 6 11 12 (mw 10) (mw 11)
  let v := gMix v 2 7 8 13 (mw 12) (mw 13)
  gMix v 3 4 9 14 (mw 14) (mw 15)

/-- The eight 64-bit chaining words of a BLAKE2b state. -/
structure B2State where
  h0 : Nat
  h1 : Nat
  h2 : Nat
  h3 : Nat
  h4 : Nat
  h5 : Nat
  h6 : Nat
  h7 : Nat
deriving DecidableEq, Repr

/-- Little-endian 64-bit word from up to eight bytes. -/
def leWord (bytes : List Nat) : Nat :=
  bytes.foldr (fun b acc => acc * 256 + b) 0

/-- The sixteen little-endian message words of a 128-byte block. -/
def blockWords (block : List Nat) : List Nat :=
  (List.range 16).map (fun i => leWord ((block.drop (8 * i)).take 8))

/-- The BLAKE2b compression function F (RFC 7693 section 3.2): `t` is the
byte offset counter and `last` the final-block flag. -/
def compress (h : B2State) (block : List Nat) (t : Nat) (last : Bool) : B2State :=
  let m := blockWords block
  let v := [h.h0, h.h1, h.h2, h.h3, h.h4, h.h5, h.h6, h.h7] ++ b2IV
  let v := vset v 12 (vget v 12 ^^^ mask64 t)
  let v := vset v 13 (vget v 13 ^^^ (t >>> 64))
  let v := if last then vset v 14 (vget v 14 ^^^ 0xFFFFFFFFFFFFFFFF) else v
  let v := (List.range 12).foldl (fun v i => b2Round m v (sigmaTable.getD (i % 10) [])) v
  ⟨h.h0 ^^^ vget v 0 ^^^ vget v 8, h.h1 ^^^ vget v 1 ^^^ vget v 9,
   h.h2 ^^^ vget v 2 ^^^ vget v 10, h.h3 ^^^ vget v 3 ^^^ vget v 11,
   h.h4 ^^^ vget v 4 ^^^ vget v 12, h.h5 ^^^ vget v 5 ^^^ vget v 13,
   h.h6 ^^^ vget v 6 ^^^ vget v 14, h.h7 ^^^ vget v 7 ^^^ vget v 15⟩

/-- Absorb a nonempty message 128 bytes at a time; the final (possibly
short) block is zero-padded and compressed with the finalization flag.
The `fuel` argument only drives structural recursion; `b2Blocks` passes
the message length, which always suffices since every recursive step
consumes 128 bytes. -/
def b2Loop (fuel : Nat) (h : B2State) (data : List Nat) (t : Nat) : B2State :=
  match fuel with
  | 0 => compress h (data ++ List.replicate (128 - data.length) 0) (t + data.length) true
  | fuel + 1 =>
      if data.length ≤ 128 then
        compress h (data ++ List.replicate (128 - data.length) 0) (t + data.length) true
      else
        b2Loop fuel (compress h (data.take 128) (t + 128) false) (data.drop 128) (t + 128)

/-- Absorption entry point for a nonempty message. -/
def b2Blocks (h : B2State) (data : List Nat) (t : Nat) : B2State :=
  b2Loop data.length h data t

/-- Little-endian serialization of a 64-bit word. -/
def u64Bytes (x : Nat) : List Nat :=
  [x % 256, (x >>> 8) % 256, (x >>> 16) % 256, (x >>> 24) % 256,
   (x >>> 32) % 256, (x >>> 40) % 256, (x >>> 48) % 256, (x >>> 56) % 256]

/-- First 32 bytes of the little-endian serialization of a final state:
the digest of an unkeyed 256-bit BLAKE2b instance. -/
def digestBytes (h : B2State) : List Nat :=
  u64Bytes h.h0 ++ u64Bytes h.h1 ++ u64Bytes h.h2 ++ u64Bytes h.h3

/-- BLAKE2b-256 (`blake2b.New256(nil)` then `Sum`): unkeyed, 32-byte digest.
The parameter block XORs `0x01010000 + digest_length` into the first IV
word; an empty message is hashed as a single zero block with the
finalization flag, matching RFC 7693. -/
def blake2b256 (data : List Nat) : List Nat :=
  let h0 : B2State :=
    ⟨0x6A09E667F3BCC908 ^^^ 0x01010020,
     0xBB67AE8584CAA73B, 0x3C6EF372FE94F82B, 0xA54FF53A5F1D36F1,
     0x510E527FADE682D1, 0x9B05688C2B3E6C1F, 0x1F83D9ABFB41BD6B, 0x5BE0CD19137E2179⟩
  let hf := if data.isEmpty
    then compress h0 (List.replicate 128 0) 0 true
    else b2Blocks h0 data 0
  digestBytes hf

/-- Lowercase hexadecimal digit (`encoding/hex` alphabet `0123456789abcdef`). -/
def hexDigit (n : Nat) : Char :=
  if n < 10 then Char.ofNat (48 + n) else Char.ofNat (87 + n)

/-- Two lowercase hexadecimal digits of one byte. -/
def byteHex (b : Nat) : List Char := [hexDigit (b / 16), hexDigit (b % 16)]

/-- Model of `hex.EncodeToString`: lowercase hexadecimal of a byte list. -/
def hexEncode (bytes : List Nat) : String := String.mk ((bytes.map byteHex).flatten)

/-- Outcome of the manifest fetch (line 99) together with the decode of the
fetched body (line 101). `GetObject` reports a missing object through its
error return, so a not-found response and every other fetch error reach
the program identically as `err != nil`; `ok none` is a fetch whose `err`
was nil but whose body did not decode as a `Manifest`. -/
inductive Fetch where
  | notFound
  | errOther
  | ok (decoded : Option Manifest)
deriving DecidableEq, Repr

/-- A storage upload attempted by the program, with its object key. -/
inductive Event where
  | putArtifact (key : String)
  | putManifest (key : String)
deriving DecidableEq, Repr

/-- Observable outcome of one execution: the uploads attempted in order,
the process exit code (0 success, 1 `os.Exit(1)`, 2 runtime panic), and
the manifest value handed to the manifest upload when one was attempted. -/
structure RunResult where
  events : List Event
  exitCode : Nat
  finalManifest : Option Manifest
deriving DecidableEq, Repr

/-- Key of the uploaded artifact, `fmt.Sprintf("%s/artifect/%s", AppID, checksum)`
(lines 164 and 174 — the literal segment in the source is spelled `artifect`). -/
def artifactKey (appID checksum : String) : String :=
  appID ++ "/artifect/" ++ checksum

/-- Key of the manifest object, `fmt.Sprintf("%s/manifest.json", AppID)`. -/
def manifestKey (appID : String) : String :=
  appID ++ "/manifest.json"

/-- The manifest the merge starts from (lines 96-105): the `err == nil`
guard on line 100 means both a not-found response and any other fetch
error skip the decode and leave the zero-valued `var manifest Manifest`;
`none` is the decode failure, where the program exits. -/
def fetchStart (fetch : Fetch) : Option Manifest :=
  match fetch with
  | .notFound => some ⟨none⟩
  | .errOther => some ⟨none⟩
  | .ok dm => dm

/-- The body of `main` from the manifest fetch to the manifest upload
(src/main.go lines 96-193), as a function of the outcomes of the external
operations: `fetch` the manifest fetch and decode, `hashOk` whether
`io.Copy` into the hasher succeeds (line 151), `seekOk` whether the rewind
succeeds (line 158), `artifactOk`/`marshalOk`/`manifestOk` whether the
artifact upload, `json.Marshal`, and the manifest upload succeed.
`fileBytes` are the bytes of the executable and `modTime` its stat
modification time. -/
def run (fetch : Fetch) (hashOk seekOk artifactOk marshalOk manifestOk : Bool)
    (appID ch pf ver : String) (fileBytes : List Nat) (modTime : Int) : RunResult :=
  match fetchStart fetch with
  | none => ⟨[], 1, none⟩
  | some m =>
    let m := ensureChannelMap m
    let m := ensureChannel m ch
    match ensurePlatform m ch pf with
    | none => ⟨[], 2, none⟩
    | some m =>
      let m := setVersion m ch ver
      if !hashOk then ⟨[], 1, none⟩ else
      let checksum := hexEncode (blake2b256 fileBytes)
      let m := setChecksum m ch pf checksum
      if !seekOk then ⟨[], 1, none⟩ else
      let key := artifactKey appID checksum
      if !artifactOk then ⟨[.putArtifact key], 1, none⟩ else
      let m := setBinary m ch pf key
      let m := setBuild m ch modTime
      if !marshalOk then ⟨[.putArtifact key], 1, none⟩ else
      if !manifestOk then ⟨[.putArtifact key, .putManifest (manifestKey appID)], 1, some m⟩
      else ⟨[.putArtifact key, .putManifest (manifestKey appID)], 0, some m⟩

theorem mapLookup_insert_self {α : Type} (m : List (String × α)) (k : String) (v : α) :
    mapLookup (mapInsert m k v) k = some v := by
  induction m with
  | nil => simp [mapInsert, mapLookup]
  | cons hd tl ih =>
      obtain ⟨k0, v0⟩ := hd
      by_cases h : k0 = k
      · subst h; simp [mapInsert, mapLookup]
      · simp [mapInsert, mapLookup, h, ih]

theorem mapLookup_insert_ne {α : Type} (m : List (String × α)) (k q : String) (v : α)
    (h : q ≠ k) : mapLookup (mapInsert m k v) q = mapLookup m q := by
  induction m with
  | nil => simp [mapInsert, mapLookup, Ne.symm h]
  | cons hd tl ih =>
      obtain ⟨k0, v0⟩ := hd
      by_cases hk : k0 = k
      · subst hk; simp [mapInsert, mapLookup, Ne.symm h]
      · simp [mapInsert, mapLookup, hk, ih]

theorem lookupChannel_ensureChannelMap (m : Manifest) (c : String) :
    lookupChannel (ensureChannelMap m) c = lookupChannel m c := by
  cases hm : m.channel <;> simp [ensureChannelMap, lookupChannel, hm, mapLookup]

theorem channel_ensureChannelMap (m : Manifest) :
    ∃ cm, (ensureChannelMap m).channel = some cm := by
  cases hm : m.channel <;> simp [ensureChannelMap, hm]

theorem lookupChannel_ensureChannel_ne (m : Manifest) (c q : String) (h : q ≠ c) :
    lookupChannel (ensureChannel m c) q = lookupChannel m q := by
  cases hm : m.channel with
  | none => simp [ensureChannel, hm]
  | some cm =>
      cases hc : mapLookup cm c with
      | none => simp [ensureChannel, hm, hc, lookupChannel, mapLookup_insert_ne _ _ _ _ h]
      | some ce => simp [ensureChannel, hm, hc]

theorem lookupChannel_ensureChannel_self (m : Manifest) (c : String) (cm : List (String × ChannelEntry))
    (hm : m.channel = some cm) :
    ∃ ce, lookupChannel (ensureChannel m c) c = some ce ∧
      (lookupChannel m c = some ce ∨ (lookupChannel m c = none ∧ ce = ⟨"", 0, some []⟩)) := by
  cases hc : mapLookup cm c with
  | none =>
      refine ⟨⟨"", 0, some []⟩, ?_, Or.inr ⟨?_, rfl⟩⟩
      · simp [ensureChannel, hm, hc, lookupChannel, mapLookup_insert_self]
      · simp [lookupChannel, hm, hc]
  | some ce =>
      exact ⟨ce, by simp [ensureChannel, hm, hc, lookupChannel], Or.inl (by simp [lookupChannel, hm, hc])⟩

theorem lookupChannel_ensurePlatform_ne (m m2 : Manifest) (c p q : String)
    (hep : ensurePlatform m c p = some m2) (h : q ≠ c) :
    lookupChannel m2 q = lookupChannel m q := by
  cases hm : m.channel with
  | none => simp [ensurePlatform, hm] at hep
  | some cm =>
      cases hc : mapLookup cm c with
      | none => simp [ensurePlatform, hm, hc] at hep
      | some ce =>
          cases ha : ce.artifact with
          | none => simp [ensurePlatform, hm, hc, ha] at hep
          | some am =>
              cases hp : mapLookup am p with
              | some a =>
                  simp [ensurePlatform, hm, hc, ha, hp] at hep
                  subst hep; rfl
              | none =>
                  simp [ensurePlatform, hm, hc, ha, hp] at hep
                  subst hep
                  simp [lookupChannel, hm, mapLookup_insert_ne _ _ _ _ h]

theorem lookupArtifact_of_lookupChannel_eq (m m2 : Manifest) (c p : String)
    (h : lookupChannel m2 c = lookupChannel m c) :
    lookupArtifact m2 c p = lookupArtifact m c p := by
  unfold lookupArtifact
  rw [h]

theorem lookupArtifact_ensureChannel (m : Manifest) (c q : String) :
    lookupArtifact (ensureChannel m c) c q = lookupArtifact m c q := by
  cases hm : m.channel with
  | none => simp [ensureChannel, hm]
  | some cm =>
      cases hc : mapLookup cm c with
      | some ce => simp [ensureChannel, hm, hc]
      | none =>
          simp [ensureChannel, hm, hc, lookupArtifact, lookupChannel,
            mapLookup_insert_self, mapLookup]

theorem lookupArtifact_ensurePlatform_ne (m m2 : Manifest) (c p q : String)
    (hep : ensurePlatform m c p = some m2) (h : q ≠ p) :
    lookupArtifact m2 c q = lookupArtifact m c q := by
  cases hm : m.channel with
  | none => simp [ensurePlatform, hm] at hep
  | some cm =>
      cases hc : mapLookup cm c with
      | none => simp [ensurePlatform, hm, hc] at hep
      | some ce =>
          cases ha : ce.artifact with
          | none => simp [ensurePlatform, hm, hc, ha] at hep
          | some am =>
              cases hp : mapLookup am p with
              | some a =>
                  simp [ensurePlatform, hm, hc, ha, hp] at hep
                  subst hep; rfl
              | none =>
                  simp [ensurePlatform, hm, hc, ha, hp] at hep
                  subst hep
                  simp [lookupArtifact, lookupChannel, hm, hc, ha,
                    mapLookup_insert_self, mapLookup_insert_ne _ _ _ _ h]

theorem ensurePlatform_target (m m2 : Manifest) (c p : String)
    (hep : ensurePlatform m c p = some m2) :
    ∃ cm ce am a, m2.channel = some cm ∧ mapLookup cm c = some ce ∧
      ce.artifact = some am ∧ mapLookup am p = some a ∧
      (lookupArtifact m c p = some a ∨ (lookupArtifact m c p = none ∧ a = ⟨"", "", ""⟩)) := by
  cases hm : m.channel with
  | none => simp [ensurePlatform, hm] at hep
  | some cm =>
      cases hc : mapLookup cm c with
      | none => simp [ensurePlatform, hm, hc] at hep
      | some ce =>
          cases ha : ce.artifact with
          | none => simp [ensurePlatform, hm, hc, ha] at hep
          | some am =>
              cases hp : mapLookup am p with
              | some a =>
                  simp [ensurePlatform, hm, hc, ha, hp] at hep
                  subst hep
                  exact ⟨cm, ce, am, a, hm, hc, ha, hp,
                    Or.inl (by simp [lookupArtifact, lookupChannel, hm, hc, ha, hp])⟩
              | none =>
                  simp [ensurePlatform, hm, hc, ha, hp] at hep
                  subst hep
                  refine ⟨_, _, _, _, rfl, mapLookup_insert_self _ _ _, rfl,
                    mapLookup_insert_self _ _ _, Or.inr ⟨?_, rfl⟩⟩
                  simp [lookupArtifact, lookupChannel, hm, hc, ha, hp]

theorem lookupChannel_setVersion_ne (m : Manifest) (c v q : String) (h : q ≠ c) :
    lookupChannel (setVersion m c v) q = lookupChannel m q := by
  cases hm : m.channel with
  | none => simp [setVersion, hm]
  | some cm =>
      cases hc : mapLookup cm c with
      | none => simp [setVersion, hm, hc]
      | some ce =>
          simp [setVersion, hm, hc, lookupChannel, mapLookup_insert_ne _ _ _ _ h]

theorem lookupChannel_setVersion_self (m : Manifest) (c v : String) (ce : ChannelEntry)
    (h : lookupChannel m c = some ce) :
    lookupChannel (setVersion m c v) c = some { ce with version := v } := by
  cases hm : m.channel with
  | none => simp [lookupChannel, hm] at h
  | some cm =>
      simp only [lookupChannel, hm] at h
      simp [setVersion, hm, h, lookupChannel, mapLookup_insert_self]

theorem lookupArtifact_setVersion (m : Manifest) (c v q : String) :
    lookupArtifact (setVersion m c v) c q = lookupArtifact m c q := by
  cases hm : m.channel with
  | none => simp [setVersion, hm]
  | some cm =>
      cases hc : mapLookup cm c with
      | none => simp [setVersion, hm, hc]
      | some ce =>
          simp [setVersion, hm, hc, lookupArtifact, lookupChannel, mapLookup_insert_self]

theorem lookupChannel_setBuild_ne (m : Manifest) (c : String) (b : Int) (q : String) (h : q ≠ c) :
    lookupChannel (setBuild m c b) q = lookupChannel m q := by
  cases hm : m.channel with
  | none => simp [setBuild, hm]
  | some cm =>
      cases hc : mapLookup cm c with
      | none => simp [setBuild, hm, hc]
      | some ce =>
          simp [setBuild, hm, hc, lookupChannel, mapLookup_insert_ne _ _ _ _ h]

theorem lookupChannel_setBuild_self (m : Manifest) (c : String) (b : Int) (ce : ChannelEntry)
    (h : lookupChannel m c = some ce) :
    lookupChannel (setBuild m c b) c = some { ce with build := b } := by
  cases hm : m.channel with
  | none => simp [lookupChannel, hm] at h
  | some cm =>
      simp only [lookupChannel, hm] at h
      simp [setBuild, hm, h, lookupChannel, mapLookup_insert_self]

theorem lookupArtifact_setBuild (m : Manifest) (c : String) (b : Int) (q : String) :
    lookupArtifact (setBuild m c b) c q = lookupArtifact m c q := by
  cases hm : m.channel with
  | none => simp [setBuild, hm]
  | some cm =>
      cases hc : mapLookup cm c with
      | none => simp [setBuild, hm, hc]
      | some ce =>
          simp [setBuild, hm, hc, lookupArtifact, lookupChannel, mapLookup_insert_self]

theorem lookupChannel_setChecksum_ne (m : Manifest) (c p s q : String) (h : q ≠ c) :
    lookupChannel (setChecksum m c p s) q = lookupChannel m q := by
  cases hm : m.channel with
  | none => simp [setChecksum, hm]
  | some cm =>
      cases hc : mapLookup cm c with
      | none => simp [setChecksum, hm, hc]
      | some ce =>
          cases ha : ce.artifact with
          | none => simp [setChecksum, hm, hc, ha]
          | some am =>
              cases hp : mapLookup am p with
              | none => simp [setChecksum, hm, hc, ha, hp]
              | some a =>
                  simp [setChecksum, hm, hc, ha, hp, lookupChannel,
                    mapLookup_insert_ne _ _ _ _ h]

theorem setChecksum_channelFields (m : Manifest) (c p s : String) (ce : ChannelEntry)
    (h : lookupChannel m c = some ce) :
    ∃ ce2, lookupChannel (setChecksum m c p s) c = some ce2 ∧
      ce2.version = ce.version ∧ ce2.build = ce.build := by
  cases hm : m.channel with
  | none => simp [lookupChannel, hm] at h
  | some cm =>
      simp only [lookupChannel, hm] at h
      cases ha : ce.artifact with
      | none => exact ⟨ce, by simp [setChecksum, hm, h, ha, lookupChannel], rfl, rfl⟩
      | some am =>
          cases hp : mapLookup am p with
          | none => exact ⟨ce, by simp [setChecksum, hm, h, ha, hp, lookupChannel], rfl, rfl⟩
          | some a =>
              refine ⟨{ ce with artifact := some (mapInsert am p { a with checksum := s }) },
                ?_, rfl, rfl⟩
              simp [setChecksum, hm, h, ha, hp, lookupChannel, mapLookup_insert_self]

theorem lookupArtifact_setChecksum_ne (m : Manifest) (c p s q : String) (h : q ≠ p) :
    lookupArtifact (setChecksum m c p s) c q = lookupArtifact m c q := by
  cases hm : m.channel with
  | none => simp [setChecksum, hm]
  | some cm =>
      cases hc : mapLookup cm c with
      | none => simp [setChecksum, hm, hc]
      | some ce =>
          cases ha : ce.artifact with
          | none => simp [setChecksum, hm, hc, ha]
          | some am =>
              cases hp : mapLookup am p with
              | none => simp [setChecksum, hm, hc, ha, hp]
              | some a =>
                  simp [setChecksum, hm, hc, ha, hp, lookupArtifact, lookupChannel,
                    mapLookup_insert_self, mapLookup_insert_ne _ _ _ _ h]

theorem lookupArtifact_setChecksum_self (m : Manifest) (c p s : String) (a : ArtifactEntry)
    (h : lookupArtifact m c p = some a) :
    lookupArtifact (setChecksum m c p s) c p = some { a with checksum := s } := by
  cases hm : m.channel with
  | none => simp [lookupArtifact, lookupChannel, hm] at h
  | some cm =>
      cases hc : mapLookup cm c with
      | none => simp [lookupArtifact, lookupChannel, hm, hc] at h
      | some ce =>
          cases ha : ce.artifact with
          | none => simp [lookupArtifact, lookupChannel, hm, hc, ha] at h
          | some am =>
              simp only [lookupArtifact, lookupChannel, hm, hc, ha] at h
              simp [setChecksum, hm, hc, ha, h, lookupArtifact, lookupChannel,
                mapLookup_insert_self]

theorem lookupChannel_setBinary_ne (m : Manifest) (c p s q : String) (h : q ≠ c) :
    lookupChannel (setBinary m c p s) q = lookupChannel m q := by
  cases hm : m.channel with
  | none => simp [setBinary, hm]
  | some cm =>
      cases hc : mapLookup cm c with
      | none => simp [setBinary, hm, hc]
      | some ce =>
          cases ha : ce.artifact with
          | none => simp [setBinary, hm, hc, ha]
          | some am =>
              cases hp : mapLookup am p with
              | none => simp [setBinary, hm, hc, ha, hp]
              | some a =>
                  simp [setBinary, hm, hc, ha, hp, lookupChannel,
                    mapLookup_insert_ne _ _ _ _ h]

theorem setBinary_channelFields (m : Manifest) (c p s : String) (ce : ChannelEntry)
    (h : lookupChannel m c = some ce) :
    ∃ ce2, lookupChannel (setBinary m c p s) c = some ce2 ∧
      ce2.version = ce.version ∧ ce2.build = ce.build := by
  cases hm : m.channel with
  | none => simp [lookupChannel, hm] at h
  | some cm =>
      simp only [lookupChannel, hm] at h
      cases ha : ce.artifact with
      | none => exact ⟨ce, by simp [setBinary, hm, h, ha, lookupChannel], rfl, rfl⟩
      | some am =>
          cases hp : mapLookup am p with
          | none => exact ⟨ce, by simp [setBinary, hm, h, ha, hp, lookupChannel], rfl, rfl⟩
          | some a =>
              refine ⟨{ ce with artifact := some (mapInsert am p { a with binary := s }) },
                ?_, rfl, rfl⟩
              simp [setBinary, hm, h, ha, hp, lookupChannel, mapLookup_insert_self]

theorem lookupArtifact_setBinary_ne (m : Manifest) (c p s q : String) (h : q ≠ p) :
    lookupArtifact (setBinary m c p s) c q = lookupArtifact m c q := by
  cases hm : m.channel with
  | none => simp [setBinary, hm]
  | some cm =>
      cases hc : mapLookup cm c with
      | none => simp [setBinary, hm, hc]
      | some ce =>
          cases ha : ce.artifact with
          | none => simp [setBinary, hm, hc, ha]
          | some am =>
              cases hp : mapLookup am p with
              | none => simp [setBinary, hm, hc, ha, hp]
              | some a =>
                  simp [setBinary, hm, hc, ha, hp, lookupArtifact, lookupChannel,
                    mapLookup_insert_self, mapLookup_insert_ne _ _ _ _ h]

theorem lookupArtifact_setBinary_self (m : Manifest) (c p s : String) (a : ArtifactEntry)
    (h : lookupArtifact m c p = some a) :
    lookupArtifact (setBinary m c p s) c p = some { a with binary := s } := by
  cases hm : m.channel with
  | none => simp [lookupArtifact, lookupChannel, hm] at h
  | some cm =>
      cases hc : mapLookup cm c with
      | none => simp [lookupArtifact, lookupChannel, hm, hc] at h
      | some ce =>
          cases ha : ce.artifact with
          | none => simp [lookupArtifact, lookupChannel, hm, hc, ha] at h
          | some am =>
              simp only [lookupArtifact, lookupChannel, hm, hc, ha] at h
              simp [setBinary, hm, hc, ha, h, lookupArtifact, lookupChannel,
                mapLookup_insert_self]

theorem setVersion_eq (m : Manifest) (c v : String) (cm : List (String × ChannelEntry))
    (ce : ChannelEntry) (hm : m.channel = some cm) (hc : mapLookup cm c = some ce) :
    setVersion m c v = ⟨some (mapInsert cm c { ce with version := v })⟩ := by
  simp [setVersion, hm, hc]

theorem setBuild_eq (m : Manifest) (c : String) (b : Int) (cm : List (String × ChannelEntry))
    (ce : ChannelEntry) (hm : m.channel = some cm) (hc : mapLookup cm c = some ce) :
    setBuild m c b = ⟨some (mapInsert cm c { ce with build := b })⟩ := by
  simp [setBuild, hm, hc]

theorem setChecksum_eq (m : Manifest) (c p s : String) (cm : List (String × ChannelEntry))
    (ce : ChannelEntry) (am : List (String × ArtifactEntry)) (a : ArtifactEntry)
    (hm : m.channel = some cm) (hc : mapLookup cm c = some ce)
    (ha : ce.artifact = some am) (hp : mapLookup am p = some a) :
    setChecksum m c p s =
      ⟨some (mapInsert cm c { ce with artifact := some (mapInsert am p { a with checksum := s }) })⟩ := by
  simp [setChecksum, hm, hc, ha, hp]

theorem setBinary_eq (m : Manifest) (c p s : String) (cm : List (String × ChannelEntry))
    (ce : ChannelEntry) (am : List (String × ArtifactEntry)) (a : ArtifactEntry)
    (hm : m.channel = some cm) (hc : mapLookup cm c = some ce)
    (ha : ce.artifact = some am) (hp : mapLookup am p = some a) :
    setBinary m c p s =
      ⟨some (mapInsert cm c { ce with artifact := some (mapInsert am p { a with binary := s }) })⟩ := by
  simp [setBinary, hm, hc, ha, hp]

/-- Combined effect of the whole merge chain of lines 107-175: frame over
other channels, frame over other platforms of the target channel, and the
target entry's final shape with the provenance of its prior value. -/
theorem mergeChain_spec (m m2 mf : Manifest) (c p ver cs key : String) (t : Int)
    (hep : ensurePlatform (ensureChannel (ensureChannelMap m) c) c p = some m2)
    (hmf : mf = setBuild (setBinary (setChecksum (setVersion m2 c ver) c p cs) c p key) c t) :
    (∀ q, q ≠ c → lookupChannel mf q = lookupChannel m q) ∧
    (∀ q, q ≠ p → lookupArtifact mf c q = lookupArtifact m c q) ∧
    (∃ a2 ce,
      (lookupArtifact m c p = some a2 ∨ (lookupArtifact m c p = none ∧ a2 = ⟨"", "", ""⟩)) ∧
      lookupChannel mf c = some ce ∧ ce.version = ver ∧ ce.build = t ∧
      lookupArtifact mf c p = some ⟨key, cs, a2.patch⟩) := by
  obtain ⟨cm2, ce2, am2, a2, hm2, hc2, ha2, hp2, hprov⟩ := ensurePlatform_target _ _ _ _ hep
  have hart_ec : lookupArtifact (ensureChannel (ensureChannelMap m) c) c p
      = lookupArtifact m c p := by
    rw [lookupArtifact_ensureChannel]
    exact lookupArtifact_of_lookupChannel_eq _ _ _ _ (lookupChannel_ensureChannelMap m c)
  rw [hart_ec] at hprov
  subst hmf
  refine ⟨?_, ?_, ?_⟩
  · intro q hq
    rw [lookupChannel_setBuild_ne _ _ _ _ hq, lookupChannel_setBinary_ne _ _ _ _ _ hq,
      lookupChannel_setChecksum_ne _ _ _ _ _ hq, lookupChannel_setVersion_ne _ _ _ _ hq,
      lookupChannel_ensurePlatform_ne _ _ _ _ _ hep hq, lookupChannel_ensureChannel_ne _ _ _ hq,
      lookupChannel_ensureChannelMap]
  · intro q hq
    rw [lookupArtifact_setBuild, lookupArtifact_setBinary_ne _ _ _ _ _ hq,
      lookupArtifact_setChecksum_ne _ _ _ _ _ hq, lookupArtifact_setVersion,
      lookupArtifact_ensurePlatform_ne _ _ _ _ _ hep hq, lookupArtifact_ensureChannel]
    exact lookupArtifact_of_lookupChannel_eq _ _ _ _ (lookupChannel_ensureChannelMap m c)
  · have hch2 : lookupChannel m2 c = some ce2 := by simp [lookupChannel, hm2, hc2]
    have hart2 : lookupArtifact m2 c p = some a2 := by
      simp [lookupArtifact, lookupChannel, hm2, hc2, ha2, hp2]
    have hch_v := lookupChannel_setVersion_self m2 c ver ce2 hch2
    have hart_v : lookupArtifact (setVersion m2 c ver) c p = some a2 := by
      rw [lookupArtifact_setVersion]; exact hart2
    obtain ⟨ce4, hch_c, hver4, _⟩ := setChecksum_channelFields (setVersion m2 c ver) c p cs _ hch_v
    have hart_c := lookupArtifact_setChecksum_self (setVersion m2 c ver) c p cs a2 hart_v
    obtain ⟨ce5, hch_b, hver5, _⟩ := setBinary_channelFields _ c p key ce4 hch_c
    have hart_b := lookupArtifact_setBinary_self _ c p key _ hart_c
    have hch_f := lookupChannel_setBuild_self _ c t ce5 hch_b
    have hart_f : lookupArtifact
        (setBuild (setBinary (setChecksum (setVersion m2 c ver) c p cs) c p key) c t) c p
        = some ⟨key, cs, a2.patch⟩ := by
      rw [lookupArtifact_setBuild]
      exact hart_b
    refine ⟨a2, { ce5 with build := t }, hprov, hch_f, ?_, rfl, hart_f⟩
    have : ce4.version = ver := by rw [hver4]
    simp [hver5, this]

/-- Decomposition of every execution that reaches the manifest upload: the
fetch decoded (or was skipped), the ensure path succeeded, every
intermediate step succeeded, the uploaded manifest is the merge chain
applied to the fetched one, and the trace is exactly the artifact upload
followed by the manifest upload. -/
theorem run_reaches_manifest (fetch : Fetch) (h1 h2 h3 h4 h5 : Bool)
    (appID c p ver : String) (bytes : List Nat) (t : Int) (mf : Manifest)
    (hf : (run fetch h1 h2 h3 h4 h5 appID c p ver bytes t).finalManifest = some mf) :
    ∃ m m2, fetchStart fetch = some m ∧
      ensurePlatform (ensureChannel (ensureChannelMap m) c) c p = some m2 ∧
      mf = setBuild (setBinary (setChecksum (setVersion m2 c ver) c p
              (hexEncode (blake2b256 bytes))) c p
              (artifactKey appID (hexEncode (blake2b256 bytes)))) c t ∧
      (run fetch h1 h2 h3 h4 h5 appID c p ver bytes t).events =
        [.putArtifact (artifactKey appID (hexEncode (blake2b256 bytes))),
         .putManifest (manifestKey appID)] := by
  cases hfs : fetchStart fetch with
  | none => simp [run, hfs] at hf
  | some m =>
      cases hep : ensurePlatform (ensureChannel (ensureChannelMap m) c) c p with
      | none => simp [run, hfs, hep] at hf
      | some m2 =>
          refine ⟨m, m2, rfl, hep, ?_⟩
          cases h1
          · simp [run, hfs, hep] at hf
          · cases h2
            · simp [run, hfs, hep] at hf
            · cases h3
              · simp [run, hfs, hep] at hf
              · cases h4
                · simp [run, hfs, hep] at hf
                · cases h5 <;> simp [run, hfs, hep] at hf ⊢ <;> exact hf.symm

/-- Shape of the upload trace in every execution: nothing, the artifact
upload alone, or the artifact upload followed by the manifest upload, the
latter only when the artifact upload succeeded. -/
theorem run_events_shape (fetch : Fetch) (h1 h2 h3 h4 h5 : Bool)
    (appID c p ver : String) (bytes : List Nat) (t : Int) :
    (run fetch h1 h2 h3 h4 h5 appID c p ver bytes t).events = [] ∨
    (run fetch h1 h2 h3 h4 h5 appID c p ver bytes t).events =
      [.putArtifact (artifactKey appID (hexEncode (blake2b256 bytes)))] ∨
    (h3 = true ∧
      (run fetch h1 h2 h3 h4 h5 appID c p ver bytes t).events =
        [.putArtifact (artifactKey appID (hexEncode (blake2b256 bytes))),
         .putManifest (manifestKey appID)]) := by
  cases hfs : fetchStart fetch with
  | none => simp [run, hfs]
  | some m =>
      cases hep : ensurePlatform (ensureChannel (ensureChannelMap m) c) c p with
      | none => simp [run, hfs, hep]
      | some m2 =>
          cases h1 <;> cases h2 <;> cases h3 <;> cases h4 <;> cases h5 <;>
            simp [run, hfs, hep]

/-- An artifact-upload failure forces a nonzero exit and prevents any
manifest upload; more generally the exit code is 0 only on the full
success path. -/
theorem run_artifact_failure (fetch : Fetch) (h1 h2 h4 h5 : Bool)
    (appID c p ver : String) (bytes : List Nat) (t : Int) :
    (run fetch h1 h2 false h4 h5 appID c p ver bytes t).exitCode ≠ 0 ∧
    (∀ k, Event.putManifest k ∉ (run fetch h1 h2 false h4 h5 appID c p ver bytes t).events) := by
  cases hfs : fetchStart fetch with
  | none => simp [run, hfs]
  | some m =>
      cases hep : ensurePlatform (ensureChannel (ensureChannelMap m) c) c p with
      | none => simp [run, hfs, hep]
      | some m2 =>
          cases h1 <;> cases h2 <;> cases h4 <;> cases h5 <;>
            simp [run, hfs, hep]

theorem u64Bytes_lt (x b : Nat) (hb : b ∈ u64Bytes x) : b < 256 := by
  simp [u64Bytes] at hb
  rcases hb with rfl | rfl | rfl | rfl | rfl | rfl | rfl | rfl <;>
    exact Nat.mod_lt _ (by decide)

theorem blake2b256_eq_digestBytes (data : List Nat) :
    ∃ st, blake2b256 data = digestBytes st :=
  ⟨_, rfl⟩

theorem blake2b256_length (data : List Nat) : (blake2b256 data).length = 32 := by
  obtain ⟨st, h⟩ := blake2b256_eq_digestBytes data
  rw [h]
  simp [digestBytes, u64Bytes]

theorem blake2b256_bytes_lt (data : List Nat) :
    ∀ b ∈ blake2b256 data, b < 256 := by
  intro b hb
  obtain ⟨st, h⟩ := blake2b256_eq_digestBytes data
  rw [h] at hb
  simp only [digestBytes, List.mem_append] at hb
  rcases hb with ((hb | hb) | hb) | hb <;> exact u64Bytes_lt _ _ hb

theorem hexDigit_mem (n : Nat) (h : n < 16) :
    hexDigit n ∈ "0123456789abcdef".data := by
  interval_cases n <;> decide

theorem hexEncode_alphabet (bytes : List Nat) (hb : ∀ b ∈ bytes, b < 256) :
    ∀ d ∈ (hexEncode bytes).data, d ∈ "0123456789abcdef".data := by
  intro d hd
  simp only [hexEncode, List.mem_flatten, List.mem_map] at hd
  obtain ⟨l, ⟨b, hbm, rfl⟩, hdl⟩ := hd
  have hblt : b < 256 := hb b hbm
  simp only [byteHex, List.mem_cons, List.not_mem_nil, or_false] at hdl
  rcases hdl with rfl | rfl
  · exact hexDigit_mem _ (by omega)
  · exact hexDigit_mem _ (Nat.mod_lt _ (by decide))

theorem hexEncode_length (bytes : List Nat) :
    (hexEncode bytes).length = 2 * bytes.length := by
  have h : ∀ l : List Nat, ((l.map byteHex).flatten).length = 2 * l.length := by
    intro l
    induction l with
    | nil => rfl
    | cons b bs ih =>
        simp [byteHex, ih]
        omega
  simpa [hexEncode, String.length] using h bytes

/-- Keys and values emitted by `json.Marshal` for one artifact entry: every
field of the struct carries a plain json tag (`binary`, `checksum`,
`patch`, src/main.go lines 201-205) and none has `omitempty`, so
encoding/json emits all three keys on every entry, in declaration order. -/
def serializeArtifactEntry (a : ArtifactEntry) : List (String × String) :=
  [("binary", a.binary), ("checksum", a.checksum), ("patch", a.patch)]

/-- Example artifact bytes, the ASCII content of the string hello. -/
def exBytes : List Nat := [104, 101, 108, 108, 111]

/-- BLAKE2b-256 digest of `exBytes` in lowercase hexadecimal. -/
def exChecksum : String :=
  "324dcf027dd4a30a932c441f365a25e86b173defa4b8e58948253471b81b72cf"

/-- Example fetched manifest: channel stable already has platform win-x64,
and channel beta has platform mac. -/
def exManifest : Manifest :=
  ⟨some [("stable", ⟨"0.9", 3, some [("win-x64", ⟨"b0", "c0", "p0"⟩)]⟩),
         ("beta", ⟨"2.0", 4, some [("mac", ⟨"b1", "c1", "p1"⟩)]⟩)]⟩

/-- The manifest the example execution hands to the manifest upload. -/
def exFinal : Manifest :=
  ⟨some [("stable", ⟨"1.0.0", 7, some
           [("win-x64", ⟨"b0", "c0", "p0"⟩),
            ("linux-x64", ⟨"app1/artifect/" ++ exChecksum, exChecksum, ""⟩)]⟩),
         ("beta", ⟨"2.0", 4, some [("mac", ⟨"b1", "c1", "p1"⟩)]⟩)]⟩

set_option maxRecDepth 1000000 in
/-- Concrete evaluation of the example execution: publish version 1.0.0 of
app1 for (stable, linux-x64) with artifact bytes hello into `exManifest`,
all external operations succeeding. -/
theorem run_ex_eval :
    run (.ok (some exManifest)) true true true true true
        "app1" "stable" "linux-x64" "1.0.0" exBytes 7
      = ⟨[.putArtifact ("app1/artifect/" ++ exChecksum), .putManifest "app1/manifest.json"],
         0, some exFinal⟩ := by
  decide

/-- Claim C1: for every fetched manifest and every target (channel,
platform), the merge leaves every other channel entry and every other
platform entry under the target channel exactly as fetched, and no channel
key is ever removed. -/
theorem merge_preserves_unrelated_entries (fetch : Fetch) (h1 h2 h3 h4 h5 : Bool)
    (appID c p ver : String) (bytes : List Nat) (t : Int) (m mf : Manifest)
    (hfetch : fetchStart fetch = some m)
    (hf : (run fetch h1 h2 h3 h4 h5 appID c p ver bytes t).finalManifest = some mf) :
    (∀ q, q ≠ c → lookupChannel mf q = lookupChannel m q) ∧
    (∀ q, q ≠ p → lookupArtifact mf c q = lookupArtifact m c q) ∧
    (∀ q, (lookupChannel m q).isSome = true → (lookupChannel mf q).isSome = true) := by
  obtain ⟨m', m2, hfs, hep, hmf, hev⟩ := run_reaches_manifest _ _ _ _ _ _ _ _ _ _ _ _ _ hf
  rw [hfetch] at hfs
  obtain rfl := Option.some.inj hfs
  obtain ⟨hfr_ch, hfr_art, a2, ce, hprov, hce, hver, hbuild, hart⟩ :=
    mergeChain_spec m m2 mf c p ver _ _ t hep hmf
  refine ⟨hfr_ch, hfr_art, ?_⟩
  intro q hq
  by_cases hqc : q = c
  · subst hqc
    rw [hce]
    rfl
  · rw [hfr_ch q hqc]
    exact hq

/-- Witness for `merge_preserves_unrelated_entries`: in the example
execution targeting (stable, linux-x64), the beta channel and the win-x64
platform entry are unchanged and the stable key is still present. -/
theorem merge_preserves_unrelated_entries_witness :
    lookupChannel exFinal "beta" = lookupChannel exManifest "beta" ∧
    lookupArtifact exFinal "stable" "win-x64" = lookupArtifact exManifest "stable" "win-x64" ∧
    (lookupChannel exFinal "stable").isSome = true := by
  have h := merge_preserves_unrelated_entries (.ok (some exManifest)) true true true true true
    "app1" "stable" "linux-x64" "1.0.0" exBytes 7 exManifest exFinal rfl
    (by rw [run_ex_eval])
  exact ⟨h.1 "beta" (by decide), h.2.1 "win-x64" (by decide), h.2.2 "stable" (by decide)⟩

/-- Claim C2 is contradicted by the code: a manifest-fetch failure for a
reason other than not-found is not fatal. The guard `if err == nil` on
line 100 protects only the decode, so every fetch error — not-found or
any other — is silently ignored; the program proceeds from the empty
manifest, uploads the artifact and then the manifest, and exits 0, where
the claim requires an abort with nonzero exit before any upload. -/
theorem fetch_error_not_fatal (appID c p ver : String) (bytes : List Nat) (t : Int) :
    (run .errOther true true true true true appID c p ver bytes t).exitCode = 0 ∧
    (run .errOther true true true true true appID c p ver bytes t).events =
      [.putArtifact (artifactKey appID (hexEncode (blake2b256 bytes))),
       .putManifest (manifestKey appID)] := by
  constructor <;>
    simp [run, fetchStart, ensureChannelMap, ensureChannel, ensurePlatform,
      mapLookup, mapInsert, setVersion, setChecksum, setBinary, setBuild]

/-- Claim C4 is contradicted by the code: on a fetched manifest whose
target channel exists but carries a null/absent artifact mapping, the
ensure path does not create the zero-valued platform entry — the
assignment on line 140 writes into a nil map, a Go runtime panic, and the
process dies abnormally (exit code 2 in the model) before any upload. -/
theorem ensure_path_nil_artifact_panics :
    ensurePlatform
        (ensureChannel (ensureChannelMap ⟨some [("stable", ⟨"1.0", 5, none⟩)]⟩) "stable")
        "stable" "linux-x64" = none ∧
    run (.ok (some ⟨some [("stable", ⟨"1.0", 5, none⟩)]⟩)) true true true true true
        "app1" "stable" "linux-x64" "2.0" exBytes 7 = ⟨[], 2, none⟩ := by
  constructor <;> decide

/-- Claim C5: a manifest upload happens only in traces where the artifact
upload came first and succeeded, and an artifact-store failure forces a
nonzero exit with no manifest upload ever attempted. -/
theorem manifest_upload_requires_artifact_success (fetch : Fetch) (h1 h2 h3 h4 h5 : Bool)
    (appID c p ver : String) (bytes : List Nat) (t : Int) :
    (∀ k, Event.putManifest k ∈ (run fetch h1 h2 h3 h4 h5 appID c p ver bytes t).events →
      h3 = true ∧
      (run fetch h1 h2 h3 h4 h5 appID c p ver bytes t).events =
        [.putArtifact (artifactKey appID (hexEncode (blake2b256 bytes))), .putManifest k]) ∧
    (h3 = false →
      (run fetch h1 h2 h3 h4 h5 appID c p ver bytes t).exitCode ≠ 0 ∧
      ∀ k, Event.putManifest k ∉ (run fetch h1 h2 h3 h4 h5 appID c p ver bytes t).events) := by
  constructor
  · intro k hk
    rcases run_events_shape fetch h1 h2 h3 h4 h5 appID c p ver bytes t with h | h | ⟨h3t, h⟩
    · rw [h] at hk
      simp at hk
    · rw [h] at hk
      simp at hk
    · rw [h] at hk
      simp at hk
      subst hk
      exact ⟨h3t, h⟩
  · intro h3f
    subst h3f
    exact run_artifact_failure fetch h1 h2 h4 h5 appID c p ver bytes t

/-- Witness for `manifest_upload_requires_artifact_success`: with the
artifact upload failing in the example execution, the exit code is
nonzero and the manifest upload is never attempted. -/
theorem manifest_upload_requires_artifact_success_witness :
    (run (.ok (some exManifest)) true true false true true
        "app1" "stable" "linux-x64" "1.0.0" exBytes 7).exitCode ≠ 0 ∧
    Event.putManifest "app1/manifest.json" ∉
      (run (.ok (some exManifest)) true true false true true
        "app1" "stable" "linux-x64" "1.0.0" exBytes 7).events := by
  have h := (manifest_upload_requires_artifact_success (.ok (some exManifest)) true true false
    true true "app1" "stable" "linux-x64" "1.0.0" exBytes 7).2 rfl
  exact ⟨h.1, h.2 "app1/manifest.json"⟩

/-- Claim C8: a fetch whose body does not decode as a manifest is fatal:
exit code 1 with no upload attempted and no manifest produced. -/
theorem decode_failure_fatal (h1 h2 h3 h4 h5 : Bool) (appID c p ver : String)
    (bytes : List Nat) (t : Int) :
    run (.ok none) h1 h2 h3 h4 h5 appID c p ver bytes t = ⟨[], 1, none⟩ :=
  rfl

/-- Claim C3 fails on the code as stated: the middle segment of the
storage key is the literal "artifect" (src/main.go lines 164 and 174), not
"artifact". In the example execution the artifact is uploaded under
app1/artifect/(hex), which differs from the claimed app1/artifact/(hex). -/
theorem artifact_key_spelling_counterexample :
    (run (.ok (some exManifest)) true true true true true
        "app1" "stable" "linux-x64" "1.0.0" exBytes 7).events.head?
      = some (.putArtifact ("app1/artifect/" ++ exChecksum)) ∧
    ("app1/artifect/" ++ exChecksum) ≠ ("app1/artifact/" ++ exChecksum) := by
  constructor
  · rw [run_ex_eval]
    rfl
  · decide

/-- Claim C3 amended: for every publish with app id A and computed
checksum H, the artifact bytes are stored under the key A/artifect/H —
the code's literal path segment is spelled "artifect", not "artifact" —
and the merged manifest's binary field for the target platform is set to
that same string. -/
theorem artifact_key_and_binary (fetch : Fetch) (h1 h2 h3 h4 h5 : Bool)
    (appID c p ver : String) (bytes : List Nat) (t : Int) (mf : Manifest)
    (hf : (run fetch h1 h2 h3 h4 h5 appID c p ver bytes t).finalManifest = some mf) :
    (run fetch h1 h2 h3 h4 h5 appID c p ver bytes t).events.head?
      = some (.putArtifact (appID ++ "/artifect/" ++ hexEncode (blake2b256 bytes))) ∧
    ∃ a, lookupArtifact mf c p = some a ∧
      a.binary = appID ++ "/artifect/" ++ hexEncode (blake2b256 bytes) := by
  obtain ⟨m, m2, hfs, hep, hmf, hev⟩ := run_reaches_manifest _ _ _ _ _ _ _ _ _ _ _ _ _ hf
  constructor
  · rw [hev]
    rfl
  · obtain ⟨_, _, a2, ce, hprov, hce, hver, hbuild, hart⟩ :=
      mergeChain_spec m m2 mf c p ver _ _ t hep hmf
    exact ⟨_, hart, rfl⟩

/-- Witness for `artifact_key_and_binary` at the example input. -/
theorem artifact_key_and_binary_witness :
    (run (.ok (some exManifest)) true true true true true
        "app1" "stable" "linux-x64" "1.0.0" exBytes 7).events.head?
      = some (.putArtifact ("app1" ++ "/artifect/" ++ hexEncode (blake2b256 exBytes))) :=
  (artifact_key_and_binary (.ok (some exManifest)) true true true true true
    "app1" "stable" "linux-x64" "1.0.0" exBytes 7 exFinal (by rw [run_ex_eval])).1

/-- Claim C6: the checksum recorded for the target platform is the
lowercase hexadecimal rendering of the 256-bit BLAKE2b digest of exactly
the artifact bytes — 32 digest bytes, 64 characters all drawn from the
lowercase hex alphabet — and, the digest and key being functions of the
app id and bytes alone, re-publishing identical bytes produces the same
checksum and the same storage key. -/
theorem checksum_is_blake2b256_hex (fetch : Fetch) (h1 h2 h3 h4 h5 : Bool)
    (appID c p ver : String) (bytes : List Nat) (t : Int) (mf : Manifest)
    (hf : (run fetch h1 h2 h3 h4 h5 appID c p ver bytes t).finalManifest = some mf) :
    (∃ a, lookupArtifact mf c p = some a ∧
      a.checksum = hexEncode (blake2b256 bytes) ∧
      a.binary = artifactKey appID (hexEncode (blake2b256 bytes))) ∧
    (blake2b256 bytes).length = 32 ∧
    (hexEncode (blake2b256 bytes)).length = 64 ∧
    (∀ d ∈ (hexEncode (blake2b256 bytes)).data, d ∈ "0123456789abcdef".data) := by
  obtain ⟨m, m2, hfs, hep, hmf, hev⟩ := run_reaches_manifest _ _ _ _ _ _ _ _ _ _ _ _ _ hf
  obtain ⟨_, _, a2, ce, hprov, hce, hver, hbuild, hart⟩ :=
    mergeChain_spec m m2 mf c p ver _ _ t hep hmf
  refine ⟨⟨_, hart, rfl, rfl⟩, blake2b256_length bytes, ?_,
    hexEncode_alphabet _ (blake2b256_bytes_lt bytes)⟩
  rw [hexEncode_length, blake2b256_length]

/-- Witness for `checksum_is_blake2b256_hex` at the example input. -/
theorem checksum_is_blake2b256_hex_witness :
    (hexEncode (blake2b256 exBytes)).length = 64 ∧
    (lookupArtifact exFinal "stable" "linux-x64").isSome = true := by
  obtain ⟨⟨a, ha, _, _⟩, _, hlen, _⟩ := checksum_is_blake2b256_hex (.ok (some exManifest))
    true true true true true "app1" "stable" "linux-x64" "1.0.0" exBytes 7 exFinal
    (by rw [run_ex_eval])
  refine ⟨hlen, ?_⟩
  rw [ha]
  rfl

/-- Claim C7: the merge sets the target channel's version field to the new
version string and its build field to the artifact's modification
timestamp; both live on the channel entry itself, so every platform under
that channel sees the same version and build. -/
theorem merge_sets_channel_version_and_build (fetch : Fetch) (h1 h2 h3 h4 h5 : Bool)
    (appID c p ver : String) (bytes : List Nat) (t : Int) (mf : Manifest)
    (hf : (run fetch h1 h2 h3 h4 h5 appID c p ver bytes t).finalManifest = some mf) :
    ∃ ce, lookupChannel mf c = some ce ∧ ce.version = ver ∧ ce.build = t := by
  obtain ⟨m, m2, hfs, hep, hmf, hev⟩ := run_reaches_manifest _ _ _ _ _ _ _ _ _ _ _ _ _ hf
  obtain ⟨_, _, a2, ce, hprov, hce, hver, hbuild, hart⟩ :=
    mergeChain_spec m m2 mf c p ver _ _ t hep hmf
  exact ⟨ce, hce, hver, hbuild⟩

/-- Witness for `merge_sets_channel_version_and_build` at the example
input. -/
theorem merge_sets_channel_version_and_build_witness :
    (lookupChannel exFinal "stable").map ChannelEntry.version = some "1.0.0" ∧
    (lookupChannel exFinal "stable").map ChannelEntry.build = some 7 := by
  obtain ⟨ce, hce, hver, hbuild⟩ := merge_sets_channel_version_and_build (.ok (some exManifest))
    true true true true true "app1" "stable" "linux-x64" "1.0.0" exBytes 7 exFinal
    (by rw [run_ex_eval])
  rw [hce]
  simp [hver, hbuild]

/-- Claim C9 fails on the code as stated: when the platform entry was
absent from the fetched manifest, the merged entry's patch field is the
empty string and the "patch" key is still serialized — the struct field
has no omitempty, so json.Marshal always emits it. In the example
execution linux-x64 was absent from the fetched manifest, and its merged
entry serializes with the pair ("patch", ""), not with the key absent. -/
theorem patch_serialized_when_absent_counterexample :
    (run (.ok (some exManifest)) true true true true true
        "app1" "stable" "linux-x64" "1.0.0" exBytes 7).finalManifest = some exFinal ∧
    lookupArtifact exManifest "stable" "linux-x64" = none ∧
    lookupArtifact exFinal "stable" "linux-x64"
      = some ⟨"app1/artifect/" ++ exChecksum, exChecksum, ""⟩ ∧
    ("patch", "") ∈ serializeArtifactEntry ⟨"app1/artifect/" ++ exChecksum, exChecksum, ""⟩ := by
  refine ⟨by rw [run_ex_eval], by decide, by decide, by decide⟩

/-- Claim C9 amended: the target platform entry's patch field is left
untouched when a value was already present in the fetched manifest and is
the empty string otherwise; in both cases the serialized output carries
the "patch" key (the field has no omitempty), so an absent value appears
as "patch": "" rather than being omitted. -/
theorem patch_preserved_or_empty (fetch : Fetch) (h1 h2 h3 h4 h5 : Bool)
    (appID c p ver : String) (bytes : List Nat) (t : Int) (m mf : Manifest)
    (hfetch : fetchStart fetch = some m)
    (hf : (run fetch h1 h2 h3 h4 h5 appID c p ver bytes t).finalManifest = some mf) :
    ∃ a, lookupArtifact mf c p = some a ∧
      ((∃ a0, lookupArtifact m c p = some a0 ∧ a.patch = a0.patch) ∨
        (lookupArtifact m c p = none ∧ a.patch = "")) ∧
      ("patch", a.patch) ∈ serializeArtifactEntry a := by
  obtain ⟨m', m2, hfs, hep, hmf, hev⟩ := run_reaches_manifest _ _ _ _ _ _ _ _ _ _ _ _ _ hf
  rw [hfetch] at hfs
  obtain rfl := Option.some.inj hfs
  obtain ⟨_, _, a2, ce, hprov, hce, hver, hbuild, hart⟩ :=
    mergeChain_spec m m2 mf c p ver _ _ t hep hmf
  refine ⟨_, hart, ?_, by simp [serializeArtifactEntry]⟩
  rcases hprov with hp | ⟨hp, rfl⟩
  · exact Or.inl ⟨a2, hp, rfl⟩
  · exact Or.inr ⟨hp, rfl⟩

/-- Witness for `patch_preserved_or_empty`: in the example execution the
target platform was absent from the fetched manifest, so its patch field
is the empty string. -/
theorem patch_preserved_or_empty_witness :
    (lookupArtifact exFinal "stable" "linux-x64").map ArtifactEntry.patch = some "" := by
  obtain ⟨a, ha, hcase, hmem⟩ := patch_preserved_or_empty (.ok (some exManifest)) true true true
    true true "app1" "stable" "linux-x64" "1.0.0" exBytes 7 exManifest exFinal rfl
    (by rw [run_ex_eval])
  rw [ha]
  rcases hcase with ⟨a0, ha0, _⟩ | ⟨_, hp⟩
  · have hnone : lookupArtifact exManifest "stable" "linux-x64" = none := by decide
    rw [hnone] at ha0
    cases ha0
  · simp [hp]

/-- Claim C10: in every execution that reaches the manifest upload, the
binary field stored for the target (channel, platform) is
character-for-character the object key under which the artifact bytes
were uploaded in the same execution. -/
theorem binary_equals_uploaded_key (fetch : Fetch) (h1 h2 h3 h4 h5 : Bool)
    (appID c p ver : String) (bytes : List Nat) (t : Int) (mf : Manifest)
    (hf : (run fetch h1 h2 h3 h4 h5 appID c p ver bytes t).finalManifest = some mf) :
    ∃ key a, (run fetch h1 h2 h3 h4 h5 appID c p ver bytes t).events.head?
        = some (.putArtifact key) ∧
      lookupArtifact mf c p = some a ∧ a.binary = key := by
  obtain ⟨m, m2, hfs, hep, hmf, hev⟩ := run_reaches_manifest _ _ _ _ _ _ _ _ _ _ _ _ _ hf
  obtain ⟨_, _, a2, ce, hprov, hce, hver, hbuild, hart⟩ :=
    mergeChain_spec m m2 mf c p ver _ _ t hep hmf
  refine ⟨artifactKey appID (hexEncode (blake2b256 bytes)), _, ?_, hart, rfl⟩
  rw [hev]
  rfl

/-- Witness for `binary_equals_uploaded_key` at the example input. -/
theorem binary_equals_uploaded_key_witness :
    (lookupArtifact exFinal "stable" "linux-x64").map ArtifactEntry.binary
      = some ("app1/artifect/" ++ exChecksum) := by
  obtain ⟨key, a, hhead, ha, hbin⟩ := binary_equals_uploaded_key (.ok (some exManifest))
    true true true true true "app1" "stable" "linux-x64" "1.0.0" exBytes 7 exFinal
    (by rw [run_ex_eval])
  have hkey : key = "app1/artifect/" ++ exChecksum := by
    rw [run_ex_eval] at hhead
    simp at hhead
    exact hhead.symm
  rw [ha]
  simp [hbin, hkey]

end UpdateManifest
